import Mathlib

set_option maxRecDepth 100000

/-!
Verification development for the RAG service core of the rag-chatbot
repository (`backend/app/services/rag_service.py`).  The Python code is
shallowly embedded: pure computations become Lean functions, the Chroma
vector store and the on-disk layout become an explicit association-list
state, Python exceptions become `Except`, and the external collaborators
(document loaders, the Ollama completion model, the embedding-based
vector search) become function parameters.  The langchain chain
combinators that `rag_service.py` imports and composes
(`create_history_aware_retriever`, `create_stuff_documents_chain`,
`create_retrieval_chain`) are embedded following the library code they
come from: a branch on empty chat history, sequential bind of the
completion call into the retriever, and a final completion call over the
stuffed context, with no error handling of their own.
-/

namespace RagSpec

/-- Values stored in a chunk's string-keyed metadata dict
(`doc.metadata` in `rag_service.py`). -/
inductive MetaVal
  | int (i : Int)
  | str (s : String)
  deriving DecidableEq, Repr

/-- A langchain `Document`: `page_content` plus a metadata dict. -/
structure Doc where
  page_content : String
  metadata : List (String × MetaVal)
  deriving DecidableEq, Repr

/-- Python exceptions raised by the service: `ValueError` (raised by
`load_document` for an unsupported extension) and plain `Exception`
(the generic wrapper raised by `process_document`, and provider
failures). -/
inductive PyErr
  | valueError (msg : String)
  | exception (msg : String)
  deriving DecidableEq, Repr

/-- Python `str(e)` on an exception: its message. -/
def pyStrErr : PyErr → String
  | .valueError m => m
  | .exception m => m

/-- Decimal digit string of a natural number, most significant digit
first; reference definition used to reason about `Nat.repr`. -/
def digs10 (n : Nat) : List Char :=
  if n < 10 then [Nat.digitChar n]
  else digs10 (n / 10) ++ [Nat.digitChar (n % 10)]
decreasing_by exact Nat.div_lt_self (by omega) (by omega)

/-! ## Document processing (`DocumentProcessor` in `rag_service.py`) -/

/-- Characters of the final path component: scanning left to right,
restart on every `/`. -/
def basenameChars (cs : List Char) : List Char :=
  (cs.foldl (fun acc c => if c = '/' then [] else c :: acc) []).reverse

/-- `os.path.basename`: the part of the path after the last `/`. -/
def basename (p : String) : String := String.mk (basenameChars p.data)

/-- Index of the last `.` in a list of characters, if any. -/
def lastDotIdx (cs : List Char) : Option Nat :=
  ((cs.enum.filter (fun p => p.2 == '.')).getLast?).map (fun p => p.1)

/-- `os.path.splitext(p)[1]`: the extension of the final path component,
including the dot; empty when the component has no dot or consists of
leading dots only (so `.bashrc` has no extension, Python semantics). -/
def splitextExt (p : String) : String :=
  let cs := (basename p).toList
  match lastDotIdx cs with
  | none => ""
  | some j => if (cs.take j).any (fun c => c != '.') then String.mk (cs.drop j) else ""

/-- ASCII lowering of one character (the effect of Python `str.lower`
on the ASCII range, which is all the extension registry contains). -/
def pyCharLower (c : Char) : Char :=
  if 'A' ≤ c ∧ c ≤ 'Z' then Char.ofNat (c.toNat + 32) else c

/-- Python `s.lower()` restricted to ASCII content. -/
def strLower (s : String) : String := String.mk (s.data.map pyCharLower)

/-- The keys of `loader_map` in `DocumentProcessor.load_document`
(`{'.pdf': PyMuPDFLoader, '.txt': TextLoader, '.md':
UnstructuredMarkdownLoader, '.docx': Docx2txtLoader}`). -/
def loaderExts : List String := [".pdf", ".txt", ".md", ".docx"]

/-- `DocumentProcessor.load_document`: looks up the lowercased extension
in `loader_map`, raising `ValueError` when absent, and otherwise runs
the external loader (`loader_map[ext](file_path).load()`), which is
passed in as `loaders : extension → path → Except`. -/
def load_document (loaders : String → String → Except PyErr (List Doc))
    (file_path : String) : Except PyErr (List Doc) :=
  let file_extension := strLower (splitextExt file_path)
  if file_extension ∈ loaderExts then loaders file_extension file_path
  else .error (.valueError ("Unsupported file type: " ++ file_extension))

/-- Python dict assignment `m[k] = v`: update in place, or append. -/
def setMeta : List (String × MetaVal) → String → MetaVal → List (String × MetaVal)
  | [], k, v => [(k, v)]
  | (k', v') :: rest, k, v =>
    if k' = k then (k, v) :: rest else (k', v') :: setMeta rest k v

/-- `DocumentProcessor.process_document`: load, split (the external
`RecursiveCharacterTextSplitter.split_documents`, passed in as
`split`), tag each chunk with `chunk_id` and `source`, and wrap any
exception in a generic `Exception("Error processing document: " +
str(e))`. -/
def process_document (loaders : String → String → Except PyErr (List Doc))
    (split : List Doc → List Doc) (file_path : String) : Except PyErr (List Doc) :=
  match load_document loaders file_path with
  | .ok documents =>
      let docs := split documents
      .ok (docs.enum.map (fun p =>
        { page_content := p.2.page_content,
          metadata := setMeta (setMeta p.2.metadata "chunk_id" (.int (Int.ofNat p.1)))
            "source" (.str (basename file_path)) }))
  | .error e => .error (.exception ("Error processing document: " ++ pyStrErr e))

/-- Whether `needle` occurs as a contiguous run at the start of `hay`. -/
def hasPref : List Char → List Char → Bool
  | _, [] => true
  | [], _ :: _ => false
  | a :: as, b :: bs => a == b && hasPref as bs

/-- Whether `needle` occurs as a contiguous run anywhere in `hay`. -/
def hasSub : List Char → List Char → Bool
  | [], needle => needle.isEmpty
  | c :: rest, needle => hasPref (c :: rest) needle || hasSub rest needle

/-! ## The Chroma vector store and the on-disk layout

A Chroma collection persists inside its `persist_directory`; the state
of the world is an association list from directory path to the named
collections (each a list of stored chunks) living in it.  Creating a
`Chroma(...)` handle creates the directory and the collection when
absent; `add_texts` appends; `delete_collection` removes one
collection; `shutil.rmtree` removes a directory and everything in
it. -/

abbrev Collection := List (String × List Doc)

abbrev FS := List (String × Collection)

/-- Association-list lookup (Python dict lookup; keys are unique). -/
def alookup {β : Type} : List (String × β) → String → Option β
  | [], _ => none
  | (k', v) :: rest, k => if k' = k then some v else alookup rest k

/-- Association-list update: replace the first binding of `k`, or
append a new one. -/
def aput {β : Type} : List (String × β) → String → β → List (String × β)
  | [], k, v => [(k, v)]
  | (k', v') :: rest, k, v =>
    if k' = k then (k, v) :: rest else (k', v') :: aput rest k v

/-- Collections currently stored in directory `d` (empty when the
directory does not exist). -/
def dirOf (fs : FS) (d : String) : Collection := (alookup fs d).getD []

/-- Chunks stored in collection `c` of directory `d`. -/
def collDocs (fs : FS) (d c : String) : List Doc := (alookup (dirOf fs d) c).getD []

/-- Create collection `c` when absent (empty), keep it when present. -/
def ensureColl (col : Collection) (c : String) : Collection :=
  if (alookup col c).isSome then col else col ++ [(c, [])]

/-- Append documents to collection `c`, creating it when absent. -/
def appendColl : Collection → String → List Doc → Collection
  | [], c, ds => [(c, ds)]
  | (k, v) :: rest, c, ds =>
    if k = c then (c, v ++ ds) :: rest else (k, v) :: appendColl rest c ds

/-- `Chroma(persist_directory=d, collection_name=c)`: attach to the
collection, creating directory and collection when absent. -/
def chromaOpen (fs : FS) (d c : String) : FS := aput fs d (ensureColl (dirOf fs d) c)

/-- `vector_store.add_texts(...)`: append the new chunks. -/
def addTexts (fs : FS) (d c : String) (ds : List Doc) : FS :=
  aput fs d (appendColl (dirOf fs d) c ds)

/-- `vector_store.delete_collection()`. -/
def deleteCollection (fs : FS) (d c : String) : FS :=
  aput fs d ((dirOf fs d).filter (fun p => p.1 != c))

/-- `shutil.rmtree(d)`: the directory and all collections in it. -/
def rmtreeFS (fs : FS) (d : String) : FS := fs.filter (fun p => p.1 != d)

/-! ## Chat history formatting -/

/-- One entry of the `chat_history` argument of `RAGService.query`:
a `{"role": ..., "content": ...}` dict. -/
structure ChatMsg where
  role : String
  content : String
  deriving DecidableEq, Repr

/-- A langchain chat message (`SystemMessage`/`HumanMessage`/`AIMessage`). -/
inductive LCMessage
  | system (content : String)
  | human (content : String)
  | ai (content : String)
  deriving DecidableEq, Repr

/-- `RAGService._format_chat_history`: `user`/`human` turns become
`HumanMessage`, `assistant`/`ai` turns become `AIMessage`, everything
else is skipped. -/
def formatChatHistory : List ChatMsg → List LCMessage
  | [] => []
  | m :: rest =>
    if m.role = "user" ∨ m.role = "human" then
      .human m.content :: formatChatHistory rest
    else if m.role = "assistant" ∨ m.role = "ai" then
      .ai m.content :: formatChatHistory rest
    else
      formatChatHistory rest

/-- `chat_history or []` in `RAGService.query` (a `None` history is
replaced by the empty list). -/
def histOrEmpty (h : Option (List ChatMsg)) : List ChatMsg := h.getD []

/-! ## Prompts (`RAGService._setup_chains`) -/

/-- `self.user_name = user_name or f"User {user_id}"` in
`RAGService.__init__` (Python `or`: both `None` and the empty string
fall back to the default). -/
def boundUserName (user_id : Int) (user_name : Option String) : String :=
  match user_name with
  | some s => if s = "" then "User " ++ toString user_id else s
  | none => "User " ++ toString user_id

/-- The `contextualize_q_system_prompt` string literal. -/
def contextualize_q_system_prompt : String :=
  "\n        Given a chat history and the latest user question which might reference context \n        in the chat history, formulate a standalone question which can be understood \n        without the chat history. Do NOT answer the question, just reformulate it if \n        needed and otherwise return it as is.\n        "

/-- Literal part of `qa_system_prompt` before the first name splice. -/
def qaLit1 : String :=
  "\n        You are a helpful AI assistant. You are currently assisting a user named "

/-- Literal part of `qa_system_prompt` between the first and second name splice. -/
def qaLit2 : String :=
  ".\n        \n        IMPORTANT: When the user asks \"what is my name\" or \"who am I\", respond with: \"Your name is "

/-- Literal part of `qa_system_prompt` between the second and third name splice. -/
def qaLit3 : String :=
  ".\"\n        \n        Use the following pieces of context to answer the user's question. If you don't know the \n        answer based on the context, just say that you don't know, don't try to make up an answer.\n        \n        You are helping "

/-- Literal part of `qa_system_prompt` between the third name splice and the context slot. -/
def qaLit4 : String := " with their personal documents and queries.\n        \n        Context: "

/-- Literal tail of `qa_system_prompt` after the context slot. -/
def qaLit5 : String := "\n        "

/-- The `qa_system_prompt` f-string with the bound user name spliced in
and the `context` template slot filled (langchain substitutes the
retrieved context at invoke time). -/
def qaSystemPrompt (name ctx : String) : String :=
  qaLit1 ++ name ++ qaLit2 ++ name ++ qaLit3 ++ name ++ qaLit4 ++ ctx ++ qaLit5

/-- `contextualize_q_prompt` applied to `{chat_history, input}`:
system prompt, then the history placeholder, then the human turn. -/
def contextualizePromptMsgs (history : List LCMessage) (input : String) : List LCMessage :=
  .system contextualize_q_system_prompt :: history ++ [.human input]

/-- `qa_prompt` applied to `{context, chat_history, input}`. -/
def qaPromptMsgs (name ctx : String) (history : List LCMessage) (input : String) :
    List LCMessage :=
  .system (qaSystemPrompt name ctx) :: history ++ [.human input]

/-! ## The RAG service -/

/-- `self.retriever` as built by `init_vector_store`:
`vector_store.as_retriever(search_type="mmr", search_kwargs=...)`.
`filter` is `search_kwargs["filter"] = {"folder_id": f}` when a folder
was given and absent otherwise. -/
structure Retriever where
  dir : String
  coll : String
  search_type : String
  k : Nat
  fetch_k : Nat
  lambda_mult : ℚ
  filter : Option Int
  deriving DecidableEq

/-- The mutable state of a `RAGService` instance.  `rag_chain` is the
chain built by `init_vector_store`; its behaviour is determined by the
retriever it closed over, so it is recorded as that retriever. -/
structure RAGService where
  user_id : Int
  user_name : String
  vector_store : Option (String × String)
  retriever : Option Retriever
  rag_chain : Option Retriever

/-- `settings.VECTOR_STORE_PATH` from `core/config.py`. -/
def vectorStorePath : String := "/app/vector_store"

/-- `f"{settings.VECTOR_STORE_PATH}/user_{self.user_id}"`. -/
def userDir (uid : Int) : String := vectorStorePath ++ "/user_" ++ toString uid

/-- `f"user_{self.user_id}_docs"`. -/
def userColl (uid : Int) : String := "user_" ++ toString uid ++ "_docs"

/-- `RAGService.__init__`: bind the user, leave the store, retriever
and chain unbound. -/
def ragServiceInit (user_id : Int) (user_name : Option String) : RAGService :=
  { user_id := user_id, user_name := boundUserName user_id user_name,
    vector_store := none, retriever := none, rag_chain := none }

/-- `RAGService.init_vector_store`: open the per-user Chroma
collection (default directory when `persist_directory` is `None`),
build the retriever with `k=8, fetch_k=20, lambda_mult=0.5` and the
folder filter exactly when `folder_id` is not `None`, and rebuild the
full chain over it. -/
def init_vector_store (svc : RAGService) (fs : FS)
    (persist_directory : Option String) (folder_id : Option Int) : RAGService × FS :=
  let d := persist_directory.getD (userDir svc.user_id)
  let c := "user_" ++ toString svc.user_id ++ "_docs"
  let fs2 := chromaOpen fs d c
  let r : Retriever :=
    { dir := d, coll := c, search_type := "mmr", k := 8, fetch_k := 20,
      lambda_mult := 0.5, filter := folder_id }
  ({ svc with vector_store := some (d, c), retriever := some r, rag_chain := some r }, fs2)

/-- `RAGService.add_documents`: lazily open the store, stamp
`folder_id` into each chunk's metadata when given, and append the
chunks to the bound collection (`persist()` is a no-op on state). -/
def add_documents (svc : RAGService) (fs : FS) (documents : List Doc)
    (folder_id : Option Int) : RAGService × FS :=
  let sf := if svc.vector_store.isNone then init_vector_store svc fs none none else (svc, fs)
  let texts := documents.map Doc.page_content
  let metadatas := documents.map Doc.metadata
  let metadatas2 :=
    match folder_id with
    | some f => metadatas.map (fun m => setMeta m "folder_id" (.int f))
    | none => metadatas
  let docs := (texts.zip metadatas2).map (fun p => { page_content := p.1, metadata := p.2 })
  match sf.1.vector_store with
  | some dc => (sf.1, addTexts sf.2 dc.1 dc.2 docs)
  | none => sf

/-! ## The composed chain

`init_vector_store` composes
`create_retrieval_chain(create_history_aware_retriever(llm, retriever,
contextualize_q_prompt), create_stuff_documents_chain(llm, qa_prompt))`
from the langchain library.  The completion model (`self.llm`, an
external provider that may fail per call) is a parameter `llm`; the
embedding-based MMR search over the candidate pool of the bound
collection is a parameter `search`. -/

abbrev LLM := List LCMessage → Except PyErr String

abbrev SearchFn := List Doc → String → List Doc

/-- The Chroma-side metadata `where`-filter: an equality test on
`folder_id`, applied to the candidate pool before search; no filter
keeps the whole collection. -/
def applyFilter (f : Option Int) (docs : List Doc) : List Doc :=
  match f with
  | none => docs
  | some fid => docs.filter (fun d => decide (alookup d.metadata "folder_id" = some (.int fid)))

/-- Invoking the bound retriever on a query string. -/
def runRetriever (search : SearchFn) (fs : FS) (r : Retriever) (q : String) : List Doc :=
  search (applyFilter r.filter (collDocs fs r.dir r.coll)) q

/-- `create_history_aware_retriever` (langchain): with an empty chat
history the input goes straight to the retriever; otherwise the
reformulation prompt is sent to the completion model and its output is
what gets retrieved.  A failing completion call propagates — the
combinator has no error handling. -/
def historyAwareRetrieve (llm : LLM) (search : SearchFn) (fs : FS) (r : Retriever)
    (input : String) (history : List LCMessage) : Except PyErr (List Doc) :=
  if history.isEmpty then .ok (runRetriever search fs r input)
  else
    match llm (contextualizePromptMsgs history input) with
    | .ok newQ => .ok (runRetriever search fs r newQ)
    | .error e => .error e

/-- `create_stuff_documents_chain` document stuffing: the retrieved
chunk texts joined by the default `"\n\n"` separator. -/
def joinContext (docs : List Doc) : String :=
  String.intercalate "\n\n" (docs.map Doc.page_content)

/-- The fields of the dict returned by `rag_chain.invoke` that
`RAGService.query` reads (`answer` and `context`). -/
structure ChainOutput where
  answer : String
  context : List Doc
  deriving DecidableEq, Repr

/-- `rag_chain.invoke({"input": ..., "chat_history": ...})`: retrieve
(with history-aware reformulation), then one completion call over the
stuffed context.  Errors of either completion call propagate. -/
def ragChainInvoke (llm : LLM) (search : SearchFn) (name : String) (fs : FS)
    (r : Retriever) (input : String) (history : List LCMessage) :
    Except PyErr ChainOutput :=
  match historyAwareRetrieve llm search fs r input history with
  | .error e => .error e
  | .ok ctx =>
      match llm (qaPromptMsgs name (joinContext ctx) history input) with
      | .error e => .error e
      | .ok ans => .ok { answer := ans, context := ctx }

/-- The dict returned by `RAGService.query`. -/
structure QueryResult where
  answer : String
  source_documents : List Doc
  question : String
  deriving DecidableEq, Repr

/-- `RAGService.query`: rebind the chain when it is unbound or a folder
was requested (`if not self.rag_chain or folder_id is not None`),
format the history, invoke the chain, and return
`{"answer": ..., "source_documents": ..., "question": question}`. -/
def query (llm : LLM) (search : SearchFn) (svc : RAGService) (fs : FS)
    (question : String) (chat_history : Option (List ChatMsg)) (folder_id : Option Int) :
    Except PyErr ((RAGService × FS) × QueryResult) :=
  let sf :=
    if svc.rag_chain.isNone || folder_id.isSome then
      init_vector_store svc fs none folder_id
    else (svc, fs)
  let formatted := formatChatHistory (histOrEmpty chat_history)
  match sf.1.rag_chain with
  | some r =>
      match ragChainInvoke llm search sf.1.user_name sf.2 r question formatted with
      | .ok out =>
          .ok ((sf.1, sf.2),
            { answer := out.answer, source_documents := out.context, question := question })
      | .error e => .error e
  | none => .error (.exception "'NoneType' object has no attribute 'invoke'")

/-- `RAGService.clear_vector_store`.  The two external destructive
calls may raise (`fDel` injects a failure of `delete_collection`, `fRm`
a failure of `shutil.rmtree`); both `try` blocks catch every exception
and only print a warning, so the state mutation of a failed call is
skipped but execution continues and nothing propagates. -/
def clear_vector_store (svc : RAGService) (fs : FS) (fDel fRm : Option String) :
    Except PyErr (RAGService × FS) :=
  let sf :=
    match svc.vector_store with
    | some dc =>
        let fs2 :=
          match fDel with
          | some _ => fs
          | none => deleteCollection fs dc.1 dc.2
        ({ svc with vector_store := none, retriever := none, rag_chain := none }, fs2)
    | none => (svc, fs)
  let d := userDir svc.user_id
  if (alookup sf.2 d).isSome then
    match fRm with
    | some _ => .ok sf
    | none => .ok (sf.1, rmtreeFS sf.2 d)
  else .ok sf

/-- `true` exactly when the call returned normally (raised nothing). -/
def exOk {α : Type} : Except PyErr α → Bool
  | .ok _ => true
  | .error _ => false

/-! ## Specification-side helpers and concrete test inputs -/

/-- The roles `_format_chat_history` keeps. -/
def roleQualifies (role : String) : Bool :=
  role == "user" || role == "human" || role == "assistant" || role == "ai"

/-- The message a kept turn becomes. -/
def toLCMessage (m : ChatMsg) : LCMessage :=
  if m.role == "user" || m.role == "human" then .human m.content else .ai m.content

/-- A completion model that always succeeds. -/
def llmOk : LLM := fun _ => .ok "ok"

/-- A search function that returns the whole candidate pool. -/
def searchAll : SearchFn := fun pool _ => pool

/-- A completion model that fails exactly when it is given the
reformulation prompt (its system message is
`contextualize_q_system_prompt`) and answers everything else. -/
def llmFailReformulate : LLM := fun ms =>
  match ms with
  | .system s :: _ =>
      if s = contextualize_q_system_prompt then .error (.exception "ProviderUnavailable")
      else .ok "ANS"
  | _ => .ok "ANS"

/-- A completion model that rewrites every reformulation request to the
fixed standalone question `Tell me about topic X` and answers every
synthesis request with a fixed answer. -/
def llmReformulator : LLM := fun ms =>
  match ms with
  | .system s :: _ =>
      if s = contextualize_q_system_prompt then .ok "Tell me about topic X"
      else .ok "Here is the answer."
  | _ => .ok "Here is the answer."

/-- A search function that records the query string it was actually
given by echoing it back as the single retrieved chunk. -/
def searchEcho : SearchFn := fun _ q => [{ page_content := q, metadata := [] }]

/-- A loader registry whose every decoder fails with cause `boom`. -/
def failLoaders : String → String → Except PyErr (List Doc) :=
  fun _ _ => .error (.exception "boom")

/-- A chunk tagged with folder 1. -/
def docF1 : Doc := { page_content := "alpha", metadata := [("folder_id", .int 1)] }

/-- A chunk tagged with folder 2. -/
def docF2 : Doc := { page_content := "beta", metadata := [("folder_id", .int 2)] }

/-- A store holding user 1's collection with one chunk in folder 1 and
one in folder 2. -/
def c1FS : FS := [(userDir 1, [(userColl 1, [docF1, docF2])])]

/-- State of the service instance after a first query scoped to folder 1. -/
def c1AfterScoped : RAGService × FS :=
  match query llmOk searchAll (ragServiceInit 1 none) c1FS "q" none (some 1) with
  | .ok (st, _) => st
  | .error _ => (ragServiceInit 1 none, c1FS)

/-- The second query on the same instance, requesting no folder scope. -/
def c1SecondCall : Except PyErr ((RAGService × FS) × QueryResult) :=
  query llmOk searchAll c1AfterScoped.1 c1AfterScoped.2 "q" none none

/-- A service instance for user 7 with its vector store bound. -/
def c5Bound : RAGService × FS := init_vector_store (ragServiceInit 7 none) [] none none

/-- A one-turn chat history. -/
def oneTurnHist : List ChatMsg := [{ role := "user", content := "Tell me about X" }]

/-- A plain query run used to sample `query`'s output record. -/
def c7Run : Except PyErr ((RAGService × FS) × QueryResult) :=
  query llmOk searchAll (ragServiceInit 3 none) [] "hello" none none

/-- The post-state of `c7Run`. -/
def c7St : RAGService × FS :=
  match c7Run with
  | .ok (st, _) => st
  | .error _ => (ragServiceInit 3 none, [])

/-- The result record of `c7Run`. -/
def c7Res : QueryResult :=
  match c7Run with
  | .ok (_, r) => r
  | .error _ => { answer := "", source_documents := [], question := "" }

end RagSpec

namespace RagSpec

theorem toDigitsCore_append (b : Nat) :
    ∀ (f n : Nat) (acc : List Char),
      Nat.toDigitsCore b f n acc = Nat.toDigitsCore b f n [] ++ acc := by
  intro f
  induction f with
  | zero => intro n acc; simp [Nat.toDigitsCore]
  | succ f ih =>
    intro n acc
    simp only [Nat.toDigitsCore]
    by_cases h : n / b = 0
    · simp [h]
    · simp only [h, if_false]
      rw [ih (n / b) (Nat.digitChar (n % b) :: acc),
        ih (n / b) [Nat.digitChar (n % b)], List.append_assoc]
      simp

theorem toDigitsCore_eq_digs10 :
    ∀ (f n : Nat), n < f → Nat.toDigitsCore 10 f n [] = digs10 n := by
  intro f
  induction f with
  | zero => intro n h; omega
  | succ f ih =>
    intro n hn
    simp only [Nat.toDigitsCore]
    by_cases h : n / 10 = 0
    · have hlt : n < 10 := by omega
      rw [digs10]
      simp [h, hlt, Nat.mod_eq_of_lt hlt]
    · have hge : ¬ n < 10 := by omega
      have hdiv : n / 10 < f := by
        have : n / 10 < n := Nat.div_lt_self (by omega) (by omega)
        omega
      rw [digs10]
      simp only [h, if_false, hge]
      rw [toDigitsCore_append 10 f (n / 10) [Nat.digitChar (n % 10)],
        ih (n / 10) hdiv]

theorem natRepr_eq_digs10 (n : Nat) : Nat.repr n = (digs10 n).asString := by
  unfold Nat.repr Nat.toDigits
  rw [toDigitsCore_eq_digs10 (n + 1) n (by omega)]

theorem digitChar_inj_range :
    ∀ m ∈ Finset.range 10, ∀ n ∈ Finset.range 10,
      Nat.digitChar m = Nat.digitChar n → m = n := by decide

theorem digitChar_inj {m n : Nat} (hm : m < 10) (hn : n < 10)
    (h : Nat.digitChar m = Nat.digitChar n) : m = n :=
  digitChar_inj_range m (Finset.mem_range.mpr hm) n (Finset.mem_range.mpr hn) h

theorem digs10_ne_nil (n : Nat) : digs10 n ≠ [] := by
  rw [digs10]
  by_cases h : n < 10 <;> simp [h]

theorem digs10_mem_digit :
    ∀ (n : Nat), ∀ c ∈ digs10 n, ∃ d, d < 10 ∧ c = Nat.digitChar d := by
  intro n
  induction n using Nat.strong_induction_on with
  | _ n ih =>
    intro c hc
    rw [digs10] at hc
    by_cases h : n < 10
    · simp [h] at hc
      exact ⟨n, h, hc⟩
    · simp [h, List.mem_append] at hc
      rcases hc with hc | hc
      · exact ih (n / 10) (Nat.div_lt_self (by omega) (by omega)) c hc
      · exact ⟨n % 10, Nat.mod_lt _ (by omega), hc⟩

theorem digs10_of_lt {n : Nat} (h : n < 10) : digs10 n = [Nat.digitChar n] := by
  rw [digs10]; simp [h]

theorem digs10_of_ge {n : Nat} (h : ¬ n < 10) :
    digs10 n = digs10 (n / 10) ++ [Nat.digitChar (n % 10)] := by
  rw [digs10]; simp [h]

theorem digs10_inj : ∀ (m n : Nat), digs10 m = digs10 n → m = n := by
  intro m
  induction m using Nat.strong_induction_on with
  | _ m ih =>
    intro n h
    by_cases hm : m < 10 <;> by_cases hn : n < 10
    · rw [digs10_of_lt hm, digs10_of_lt hn] at h
      simp at h
      exact digitChar_inj hm hn h
    · rw [digs10_of_lt hm, digs10_of_ge hn] at h
      rcases hx : digs10 (n / 10) with _ | ⟨c, cs⟩
      · exact absurd hx (digs10_ne_nil (n / 10))
      · rw [hx] at h
        simp at h
    · rw [digs10_of_ge hm, digs10_of_lt hn] at h
      rcases hx : digs10 (m / 10) with _ | ⟨c, cs⟩
      · exact absurd hx (digs10_ne_nil (m / 10))
      · rw [hx] at h
        simp at h
    · rw [digs10_of_ge hm, digs10_of_ge hn] at h
      have hlen : (digs10 (m / 10)).length = (digs10 (n / 10)).length := by
        have := congrArg List.length h
        simp [List.length_append] at this
        omega
      have hparts := List.append_inj h hlen
      have hdiv : m / 10 = n / 10 :=
        ih (m / 10) (Nat.div_lt_self (by omega) (by omega)) (n / 10) hparts.1
      have hmod : m % 10 = n % 10 := by
        have htail := hparts.2
        simp at htail
        exact digitChar_inj (Nat.mod_lt _ (by omega)) (Nat.mod_lt _ (by omega)) htail
      omega

theorem natRepr_inj {m n : Nat} (h : Nat.repr m = Nat.repr n) : m = n := by
  rw [natRepr_eq_digs10, natRepr_eq_digs10] at h
  have hdata := congrArg String.data h
  simp [List.asString] at hdata
  exact digs10_inj m n hdata

theorem digitChar_ne_dash : ∀ d ∈ Finset.range 10, Nat.digitChar d ≠ '-' := by decide

theorem natRepr_no_dash_head (n : Nat) (rest : List Char) :
    (Nat.repr n).data ≠ '-' :: rest := by
  intro h
  rw [natRepr_eq_digs10] at h
  simp [List.asString] at h
  have hmem : '-' ∈ digs10 n := by
    rw [h]; exact List.mem_cons_self _ _
  obtain ⟨d, hd, hdc⟩ := digs10_mem_digit n '-' hmem
  exact digitChar_ne_dash d (Finset.mem_range.mpr hd) hdc.symm

theorem intRepr_inj : ∀ (a b : Int), Int.repr a = Int.repr b → a = b := by
  intro a b h
  cases a with
  | ofNat m =>
    cases b with
    | ofNat n =>
      simp [Int.repr] at h
      exact congrArg Int.ofNat (natRepr_inj h)
    | negSucc n =>
      exfalso
      simp [Int.repr] at h
      have hdata := congrArg String.data h
      rw [String.data_append] at hdata
      exact natRepr_no_dash_head m _ (by simpa using hdata)
  | negSucc m =>
    cases b with
    | ofNat n =>
      exfalso
      simp [Int.repr] at h
      have hdata := congrArg String.data h
      rw [String.data_append] at hdata
      exact natRepr_no_dash_head n _ (by simpa using hdata.symm)
    | negSucc n =>
      simp [Int.repr] at h
      have hdata := congrArg String.data h
      rw [String.data_append, String.data_append] at hdata
      have hd : (Nat.repr (m + 1)).data = (Nat.repr (n + 1)).data := by
        simpa using hdata
      have := natRepr_inj (String.ext hd)
      have hmn : m = n := by omega
      rw [hmn]

theorem intToString_inj : ∀ (a b : Int), toString a = toString b → a = b := by
  intro a b h
  exact intRepr_inj a b h

theorem userDir_inj {a b : Int} (h : a ≠ b) : userDir a ≠ userDir b := by
  intro he
  apply h
  apply intToString_inj
  apply String.ext
  have hd := congrArg String.data he
  simp only [userDir, String.data_append, List.append_assoc] at hd
  exact List.append_cancel_left (List.append_cancel_left hd)

/-! ## Association-list lemmas -/

theorem alookup_aput_self {β : Type} (l : List (String × β)) (k : String) (v : β) :
    alookup (aput l k v) k = some v := by
  induction l with
  | nil => simp [aput, alookup]
  | cons p rest ih =>
    by_cases h : p.1 = k
    · simp [aput, alookup, h]
    · simp [aput, alookup, h, ih]

theorem alookup_aput_other {β : Type} (l : List (String × β)) (k k' : String) (v : β)
    (h : k' ≠ k) : alookup (aput l k v) k' = alookup l k' := by
  have hk : k ≠ k' := Ne.symm h
  induction l with
  | nil => simp [aput, alookup, hk]
  | cons p rest ih =>
    by_cases hp : p.1 = k
    · simp [aput, alookup, hp, hk]
    · by_cases hp' : p.1 = k'
      · simp [aput, alookup, hp, hp', h, hk]
      · simp [aput, alookup, hp, hp', ih]

theorem alookup_filter_ne_self {β : Type} (l : List (String × β)) (k : String) :
    alookup (l.filter (fun p => p.1 != k)) k = none := by
  induction l with
  | nil => simp [alookup]
  | cons p rest ih =>
    by_cases h : p.1 = k
    · simp [List.filter_cons, h, ih]
    · have hb : (p.1 != k) = true := by simpa using h
      simp [List.filter_cons, hb, alookup, h, ih]

theorem alookup_append_of_none {β : Type} (l1 l2 : List (String × β)) (k : String)
    (h : alookup l1 k = none) : alookup (l1 ++ l2) k = alookup l2 k := by
  induction l1 with
  | nil => simp
  | cons p rest ih =>
    by_cases hp : p.1 = k
    · simp [alookup, hp] at h
    · simp [alookup, hp] at h ⊢
      exact ih h

/-! ## C8 — the synthesizer prompt always carries the bound display name -/

/-- C8: For every tenant binding, the synthesizer's system message
literally contains the bound tenant display name — whatever context was
retrieved — and when no display name is supplied the bound name is
`User {user_id}`. -/
theorem c8_qa_prompt_contains_bound_name (uid : Int) (uname : Option String) (ctx : String) :
    (∃ s t, qaSystemPrompt (boundUserName uid uname) ctx
        = s ++ (boundUserName uid uname ++ t))
      ∧ boundUserName uid none = "User " ++ toString uid := by
  constructor
  · exact ⟨qaLit1,
      qaLit2 ++ boundUserName uid uname ++ qaLit3 ++ boundUserName uid uname
        ++ qaLit4 ++ ctx ++ qaLit5,
      by simp [qaSystemPrompt, String.append_assoc]⟩
  · rfl

/-! ## C10 — chat-history formatting -/

/-- C10: A history turn is kept by `_format_chat_history` exactly when
its role is `user`, `human`, `assistant` or `ai` (anything else is
silently dropped), the relative order of kept turns is preserved
(the formatted history is the filter-map of the input), and a `None`
history is treated as the empty history. -/
theorem c10_format_chat_history (h : List ChatMsg) :
    formatChatHistory h = (h.filter (fun m => roleQualifies m.role)).map toLCMessage
      ∧ formatChatHistory (histOrEmpty none) = [] := by
  constructor
  · induction h with
    | nil => rfl
    | cons m rest ih =>
      by_cases h1 : m.role = "user" ∨ m.role = "human"
      · have hq : roleQualifies m.role = true := by
          rcases h1 with h1 | h1 <;> simp [roleQualifies, h1]
        have ht : toLCMessage m = .human m.content := by
          rcases h1 with h1 | h1 <;> simp [toLCMessage, h1]
        simp [formatChatHistory, h1, List.filter, hq, ht, ih]
      · by_cases h2 : m.role = "assistant" ∨ m.role = "ai"
        · have hq : roleQualifies m.role = true := by
            rcases h2 with h2 | h2 <;> simp [roleQualifies, h2]
          have ht : toLCMessage m = .ai m.content := by
            push_neg at h1
            rcases h2 with h2 | h2 <;> simp [toLCMessage, h2, h1.1, h1.2]
          simp [formatChatHistory, h1, h2, List.filter, hq, ht, ih]
        · have hq : roleQualifies m.role = false := by
            push_neg at h1 h2
            simp [roleQualifies, h1.1, h1.2, h2.1, h2.2]
          simp [formatChatHistory, h1, h2, List.filter, hq, ih]
  · rfl

/-! ## C6 — ingestion error behaviour -/

/-- C6 (counterexample): the claim says decode failures surface as a
`LoadError` wrapping the underlying cause *and the file identity*, and
that unsupported extensions raise a distinct `UnsupportedFormat` kind.
In the code both cases surface as the same generic
`Exception("Error processing document: ...")`: the decode-failure
message for `docs/report.pdf` does not mention the file at all, and the
unsupported-extension error is the same generic kind. -/
theorem c6_counterexample :
    process_document failLoaders id "docs/report.pdf"
        = .error (.exception "Error processing document: boom")
      ∧ hasSub "Error processing document: boom".toList "report.pdf".toList = false
      ∧ process_document failLoaders id "docs/a.xyz"
        = .error (.exception "Error processing document: Unsupported file type: .xyz") := by
  refine ⟨rfl, rfl, rfl⟩

/-- C6 (amended): `process_document` fails exactly when the extension
is outside the four-entry registry or the decoder fails, and both
failures surface as one generic error kind whose message wraps the
cause (`Unsupported file type: {ext}` names the extension; a decode
failure's message carries only the cause, not the file identity). -/
theorem c6_amended_generic_error_wrapping
    (loaders : String → String → Except PyErr (List Doc))
    (split : List Doc → List Doc) (file_path : String) :
    (strLower (splitextExt file_path) ∉ loaderExts →
      process_document loaders split file_path
        = .error (.exception ("Error processing document: "
            ++ ("Unsupported file type: " ++ strLower (splitextExt file_path)))))
    ∧ (∀ e, strLower (splitextExt file_path) ∈ loaderExts →
        loaders (strLower (splitextExt file_path)) file_path = .error e →
        process_document loaders split file_path
          = .error (.exception ("Error processing document: " ++ pyStrErr e)))
    ∧ (∀ ds, strLower (splitextExt file_path) ∈ loaderExts →
        loaders (strLower (splitextExt file_path)) file_path = .ok ds →
        ∃ out, process_document loaders split file_path = .ok out) := by
  refine ⟨?_, ?_, ?_⟩
  · intro hmem
    simp [process_document, load_document, hmem, pyStrErr]
  · intro e hmem hload
    simp [process_document, load_document, hmem, hload, pyStrErr]
  · intro ds hmem hload
    simp [process_document, load_document, hmem, hload]

/-- C6 amended, applied at a concrete input: `.pdf` is in the registry
and a decoder failing with `boom` makes `process_document` raise the
generic wrapper around just the cause. -/
theorem c6_amended_witness :
    (strLower (splitextExt "docs/report.pdf") ∈ loaderExts)
      ∧ process_document failLoaders id "docs/report.pdf"
        = .error (.exception "Error processing document: boom") := by
  refine ⟨by decide, ?_⟩
  exact (c6_amended_generic_error_wrapping failLoaders id "docs/report.pdf").2.1
    (.exception "boom") (by decide) rfl

/-! ## C4 / C5 — clearing the vector store -/

theorem clear_first_call (svc : RAGService) (fs : FS) (fDel : Option String) :
    ∃ s1 f1, clear_vector_store svc fs fDel none = .ok (s1, f1)
      ∧ s1.vector_store = none ∧ s1.user_id = svc.user_id
      ∧ alookup f1 (userDir svc.user_id) = none := by
  have hrm : ∀ g : FS, alookup (rmtreeFS g (userDir svc.user_id)) (userDir svc.user_id) = none :=
    fun g => alookup_filter_ne_self g (userDir svc.user_id)
  cases hvs : svc.vector_store with
  | none =>
    cases halk : alookup fs (userDir svc.user_id) with
    | none =>
      refine ⟨svc, fs, ?_, hvs, rfl, halk⟩
      simp [clear_vector_store, hvs, halk]
    | some col =>
      refine ⟨svc, rmtreeFS fs (userDir svc.user_id), ?_, hvs, rfl, hrm fs⟩
      simp [clear_vector_store, hvs, halk]
  | some dc =>
    cases fDel with
    | none =>
      cases halk : alookup (deleteCollection fs dc.1 dc.2) (userDir svc.user_id) with
      | none =>
        refine ⟨{ svc with vector_store := none, retriever := none, rag_chain := none },
          deleteCollection fs dc.1 dc.2, ?_, rfl, rfl, halk⟩
        simp [clear_vector_store, hvs, halk]
      | some col =>
        refine ⟨{ svc with vector_store := none, retriever := none, rag_chain := none },
          rmtreeFS (deleteCollection fs dc.1 dc.2) (userDir svc.user_id), ?_,
          rfl, rfl, hrm _⟩
        simp [clear_vector_store, hvs, halk]
    | some m =>
      cases halk : alookup fs (userDir svc.user_id) with
      | none =>
        refine ⟨{ svc with vector_store := none, retriever := none, rag_chain := none },
          fs, ?_, rfl, rfl, halk⟩
        simp [clear_vector_store, hvs, halk]
      | some col =>
        refine ⟨{ svc with vector_store := none, retriever := none, rag_chain := none },
          rmtreeFS fs (userDir svc.user_id), ?_, rfl, rfl, hrm fs⟩
        simp [clear_vector_store, hvs, halk]

theorem clear_noop (s : RAGService) (f : FS) (h1 : s.vector_store = none)
    (h2 : alookup f (userDir s.user_id) = none) :
    clear_vector_store s f none none = .ok (s, f) := by
  simp [clear_vector_store, h1, h2]

/-- C4: `clear_vector_store` is idempotent: one call leaves no on-disk
state and no chunks for the user, the second call is a no-op that
raises no error, and a `delete_collection` failure such as "collection
does not exist" is swallowed (treated as success) with the directory
still removed. -/
theorem c4_clear_idempotent (svc : RAGService) (fs : FS) :
    ∃ s1 f1,
      clear_vector_store svc fs none none = .ok (s1, f1)
      ∧ alookup f1 (userDir svc.user_id) = none
      ∧ collDocs f1 (userDir svc.user_id) (userColl svc.user_id) = []
      ∧ clear_vector_store s1 f1 none none = .ok (s1, f1)
      ∧ (∀ m, ∃ s2 f2,
          clear_vector_store svc fs (some m) none = .ok (s2, f2)
          ∧ alookup f2 (userDir svc.user_id) = none) := by
  obtain ⟨s1, f1, h1, hvs1, huid1, hlk1⟩ := clear_first_call svc fs none
  refine ⟨s1, f1, h1, hlk1, ?_, ?_, ?_⟩
  · simp [collDocs, dirOf, hlk1, alookup]
  · exact clear_noop s1 f1 hvs1 (by rw [huid1]; exact hlk1)
  · intro m
    obtain ⟨s2, f2, h2, _, _, hlk2⟩ := clear_first_call svc fs (some m)
    exact ⟨s2, f2, h2, hlk2⟩

/-- C5 (counterexample): with the store bound, an injected generic I/O
failure of `delete_collection` ("disk full", not an index-absent
condition), or of `shutil.rmtree`, still makes `clear_vector_store`
return normally — the failure is caught and logged, not propagated to
the caller as the claim requires. -/
theorem c5_counterexample :
    exOk (clear_vector_store c5Bound.1 c5Bound.2
        (some "disk full: Input/output error") none) = true
      ∧ exOk (clear_vector_store c5Bound.1 c5Bound.2 none
        (some "Permission denied: Input/output error")) = true :=
  ⟨rfl, rfl⟩

/-- C5 (amended): `clear_vector_store` swallows every failure of the
two destructive calls — index-absent conditions and any other I/O
failure alike are caught, logged and never propagated; the call always
returns normally. -/
theorem c5_amended_swallows_every_failure (svc : RAGService) (fs : FS)
    (fDel fRm : Option String) :
    ∃ out, clear_vector_store svc fs fDel fRm = .ok out := by
  cases hvs : svc.vector_store <;> cases fDel <;> cases fRm <;>
    simp only [clear_vector_store, hvs] <;> split <;> exact ⟨_, rfl⟩

/-! ## C1 — folder-scope rebinding -/

/-- C1 (code bug): the rebinding guard in `query` is `if not
self.rag_chain or folder_id is not None`, not "if the scope changed".
After a query scoped to folder 1, a second query on the same instance
that requests *no* folder scope does not rebind: the bound retriever
still carries the filter `{folder_id: 1}` (first and second
conjuncts), so the unscoped call retrieves only folder-1 chunks
(`[docF1]`) although the collection also holds `docF2` (third
conjunct).  The claim — and the code's own comment "Reinitialize if
folder_id changes" — require the unscoped call to run with no filter. -/
theorem c1_stale_scope_filter :
    (c1AfterScoped.1.rag_chain.map Retriever.filter = some (some 1))
      ∧ (c1SecondCall.map
          (fun x => (x.1.1.rag_chain.map Retriever.filter, x.2.source_documents))
        = .ok (some (some 1), [docF1]))
      ∧ collDocs c1AfterScoped.2 (userDir 1) (userColl 1) = [docF1, docF2] :=
  ⟨rfl, rfl, rfl⟩

/-! ## C2 — a reformulation failure aborts the query -/

/-- C2 (counterexample): with a non-empty history and a completion
provider that fails on the reformulation prompt, `query` does not fall
back to the original question — it aborts and the reformulation
failure is surfaced verbatim to the caller. -/
theorem c2_counterexample_reformulation_failure_surfaces :
    query llmFailReformulate searchAll (ragServiceInit 1 none) []
        "What about it?" (some oneTurnHist) none
      = .error (.exception "ProviderUnavailable") := rfl

/-- C2 (amended): whenever the formatted history is non-empty and the
completion provider fails on the reformulation prompt built from it,
`query` propagates exactly that failure instead of completing with the
original question: there is no fallback anywhere in the chain. -/
theorem c2_amended_reformulation_failure_aborts
    (llm : LLM) (search : SearchFn) (svc : RAGService) (fs : FS)
    (q : String) (hist : Option (List ChatMsg)) (folder_id : Option Int) (e : PyErr)
    (hne : (formatChatHistory (histOrEmpty hist)).isEmpty = false)
    (hfail : llm (contextualizePromptMsgs (formatChatHistory (histOrEmpty hist)) q)
      = .error e) :
    query llm search svc fs q hist folder_id = .error e := by
  by_cases hc : (svc.rag_chain.isNone || folder_id.isSome) = true
  · simp [query, hc, init_vector_store, ragChainInvoke, historyAwareRetrieve, hne, hfail]
  · obtain ⟨r, hr⟩ : ∃ r, svc.rag_chain = some r := by
      cases h : svc.rag_chain
      · rw [h] at hc; simp at hc
      · exact ⟨_, rfl⟩
    have hfol : folder_id.isSome = false := by
      cases folder_id
      · rfl
      · simp [hr] at hc
    simp [query, hr, hfol, ragChainInvoke, historyAwareRetrieve, hne, hfail]

/-- C2 amended, applied at a concrete input: one `user` turn of
history, a provider failing on the reformulation prompt, and the
failure comes straight back out of `query`. -/
theorem c2_amended_witness :
    ((formatChatHistory (histOrEmpty (some oneTurnHist))).isEmpty = false)
      ∧ query llmFailReformulate searchAll (ragServiceInit 2 none) []
          "And what about Y?" (some oneTurnHist) none
        = .error (.exception "ProviderUnavailable") :=
  ⟨rfl, c2_amended_reformulation_failure_aborts llmFailReformulate searchAll
    (ragServiceInit 2 none) [] "And what about Y?" (some oneTurnHist) none
    (.exception "ProviderUnavailable") rfl rfl⟩

/-! ## C7 — what the query result record contains -/

/-- C7 (counterexample): the provider reformulates the follow-up
question to `Tell me about topic X`, the search echoes the query string
it actually received — proving retrieval ran on the reformulated
question — yet the returned record's `question` field holds the
original input, not the reformulated question the claim requires (and
the retrieved chunks carry no scores). -/
theorem c7_counterexample :
    (query llmReformulator searchEcho (ragServiceInit 1 none) []
        "what about it?" (some oneTurnHist) none).map (fun x => x.2)
      = .ok { answer := "Here is the answer.",
              source_documents := [{ page_content := "Tell me about topic X", metadata := [] }],
              question := "what about it?" }
    ∧ ("what about it?" ≠ "Tell me about topic X") :=
  ⟨rfl, by decide⟩

/-- C7 (amended): every successful `query` returns the answer, the
retrieved chunks (as bare documents, without scores), and — in the
`question` field — the original question exactly as passed in; the
reformulated question used for retrieval is not part of the result. -/
theorem c7_amended_returns_original_question
    (llm : LLM) (search : SearchFn) (svc : RAGService) (fs : FS)
    (q : String) (hist : Option (List ChatMsg)) (folder_id : Option Int)
    (st : RAGService × FS) (res : QueryResult)
    (h : query llm search svc fs q hist folder_id = .ok (st, res)) :
    res.question = q := by
  simp only [query] at h
  split at h
  · split at h
    · injection h with h3
      have h4 := congrArg Prod.snd h3
      exact (congrArg QueryResult.question h4).symm
    · exact Except.noConfusion h
  · exact Except.noConfusion h

/-- C7 amended, applied at a concrete input. -/
theorem c7_amended_witness : c7Res.question = "hello" :=
  c7_amended_returns_original_question llmOk searchAll (ragServiceInit 3 none) []
    "hello" none none c7St c7Res rfl

/-! ## C3 — tenant isolation -/

theorem invoke_fs_congr (llm : LLM) (search : SearchFn) (name : String)
    (fs1 fs2 : FS) (r : Retriever) (input : String) (history : List LCMessage)
    (h : alookup fs1 r.dir = alookup fs2 r.dir) :
    ragChainInvoke llm search name fs1 r input history
      = ragChainInvoke llm search name fs2 r input history := by
  unfold ragChainInvoke historyAwareRetrieve runRetriever collDocs dirOf
  rw [h]

theorem add_documents_preserves_other_dirs
    (sA : RAGService) (fs : FS) (docs : List Doc) (fId : Option Int) (d' : String)
    (hA : sA.vector_store = none
      ∨ sA.vector_store = some (userDir sA.user_id, userColl sA.user_id))
    (hd : d' ≠ userDir sA.user_id) :
    alookup (add_documents sA fs docs fId).2 d' = alookup fs d' := by
  rcases hA with hA | hA
  · have hnone : sA.vector_store.isNone = true := by rw [hA]; rfl
    simp only [add_documents, hnone, if_true, init_vector_store, Option.getD,
      chromaOpen, addTexts]
    rw [alookup_aput_other _ _ _ _ hd, alookup_aput_other _ _ _ _ hd]
  · simp only [add_documents, hA, Option.isNone_some, Bool.false_eq_true, if_false, addTexts]
    rw [alookup_aput_other _ _ _ _ hd]

theorem query_result_fs_congr (llm : LLM) (search : SearchFn) (svc : RAGService)
    (fs1 fs2 : FS) (q : String) (hist : Option (List ChatMsg)) (scope : Option Int)
    (hB : svc.rag_chain = none
      ∨ ∃ r, svc.rag_chain = some r ∧ r.dir = userDir svc.user_id)
    (hfs : alookup fs1 (userDir svc.user_id) = alookup fs2 (userDir svc.user_id)) :
    (query llm search svc fs1 q hist scope).map (fun x => x.2)
      = (query llm search svc fs2 q hist scope).map (fun x => x.2) := by
  by_cases hc : (svc.rag_chain.isNone || scope.isSome) = true
  · have hAl : alookup (chromaOpen fs1 (userDir svc.user_id)
          ("user_" ++ toString svc.user_id ++ "_docs")) (userDir svc.user_id)
        = alookup (chromaOpen fs2 (userDir svc.user_id)
          ("user_" ++ toString svc.user_id ++ "_docs")) (userDir svc.user_id) := by
      simp [chromaOpen, alookup_aput_self, dirOf, hfs]
    have hinv := invoke_fs_congr llm search svc.user_name
      (chromaOpen fs1 (userDir svc.user_id) ("user_" ++ toString svc.user_id ++ "_docs"))
      (chromaOpen fs2 (userDir svc.user_id) ("user_" ++ toString svc.user_id ++ "_docs"))
      { dir := userDir svc.user_id, coll := "user_" ++ toString svc.user_id ++ "_docs",
        search_type := "mmr", k := 8, fetch_k := 20, lambda_mult := 0.5, filter := scope }
      q (formatChatHistory (histOrEmpty hist)) hAl
    simp only [query, hc, if_true, init_vector_store, Option.getD]
    rw [hinv]
    split <;> rfl
  · obtain ⟨r, hr, hdir⟩ : ∃ r, svc.rag_chain = some r ∧ r.dir = userDir svc.user_id := by
      rcases hB with hB | hB
      · rw [hB] at hc; simp at hc
      · exact hB
    have hfol : scope.isSome = false := by
      cases scope
      · rfl
      · rw [hr] at hc; simp at hc
    have hinv := invoke_fs_congr llm search svc.user_name fs1 fs2 r q
      (formatChatHistory (histOrEmpty hist)) (by rw [hdir]; exact hfs)
    simp only [query, hr, hfol, Option.isNone_some, Bool.false_or, Bool.false_eq_true,
      if_false]
    rw [hinv]
    split <;> rfl

/-- C3: tenant isolation as two-run noninterference.  For two services
bound to distinct users (with user A's store either unbound or bound to
A's own directory, and user B's chain either unbound or bound to B's
own directory — the only states the service code produces), ingesting
any chunks for user A leaves every query result for user B — answer,
retrieved chunks and all — exactly as it would have been without the
ingestion, whatever the provider, the search behaviour, the question,
the history and the folder scope. -/
theorem c3_tenant_isolation
    (sA sB : RAGService)
    (hu : sA.user_id ≠ sB.user_id)
    (hA : sA.vector_store = none
      ∨ sA.vector_store = some (userDir sA.user_id, userColl sA.user_id))
    (hB : sB.rag_chain = none
      ∨ ∃ r, sB.rag_chain = some r ∧ r.dir = userDir sB.user_id)
    (fs : FS) (docs : List Doc) (fId : Option Int)
    (llm : LLM) (search : SearchFn)
    (q : String) (hist : Option (List ChatMsg)) (scope : Option Int) :
    (query llm search sB (add_documents sA fs docs fId).2 q hist scope).map (fun x => x.2)
      = (query llm search sB fs q hist scope).map (fun x => x.2) :=
  query_result_fs_congr llm search sB _ fs q hist scope hB
    (add_documents_preserves_other_dirs sA fs docs fId (userDir sB.user_id) hA
      (userDir_inj (Ne.symm hu)))

/-- C3 applied at a concrete input: ingesting a chunk for user 1 does
not change what a query for user 2 returns. -/
theorem c3_witness :
    ((ragServiceInit 1 none).user_id ≠ (ragServiceInit 2 none).user_id)
      ∧ (query llmOk searchAll (ragServiceInit 2 none)
            (add_documents (ragServiceInit 1 none) []
              [{ page_content := "user one secret", metadata := [] }] none).2
            "q" none none).map (fun x => x.2)
        = (query llmOk searchAll (ragServiceInit 2 none) [] "q" none none).map
            (fun x => x.2) :=
  ⟨by decide, c3_tenant_isolation (ragServiceInit 1 none) (ragServiceInit 2 none)
    (by decide) (Or.inl rfl) (Or.inl rfl) []
    [{ page_content := "user one secret", metadata := [] }] none llmOk searchAll
    "q" none none⟩

end RagSpec
